import Mathlib

/-!
Verification of the CryptoScalp momentum scanner (src/app.py).

The repository is a single Streamlit script.  The parts embedded here:

* `generate_signals` (src/app.py lines 66-89): a per-bar loop that compares
  the close price with the Bollinger bands and RSI with two thresholds and
  builds the `Buy_Signal` / `Sell_Signal` columns.  Missing indicator values
  (pandas `NaN`) make every comparison false; we embed each per-bar cell as
  an `Option` value and comparisons with `none` return `false`.
* `apply_strategy` (lines 48-64): attaches the `RSI`, `BB_Lower`,
  `BB_Middle`, `BB_Upper` columns.  The indicator arithmetic itself lives in
  the external `pandas_ta` library (not part of this repository), so the
  indicator functions below are modelled from the spec (RSI(14) with
  Wilder's smoothing and the documented zero-division policy; Bollinger
  Bands(20, 2) with sample standard deviation; undefined entries are
  `none`).  Prices are embedded as rationals; the Bollinger standard
  deviation needs a square root and therefore lands in `ℝ`.
* the `Scan Market` branch of the main script (lines 92-155): fetch-outcome
  handling, the user-visible error messages, and the summary metrics.
-/

namespace CryptoScalp

/-- Modelled from the spec: the per-step gain series of a close-price list,
`max (close[j+1] - close[j]) 0` for consecutive bars (RSI input). -/
def gains : List ℚ → List ℚ
  | a :: b :: t => max (b - a) 0 :: gains (b :: t)
  | _ => []

/-- Modelled from the spec: the per-step loss series of a close-price list,
`max (close[j] - close[j+1]) 0` for consecutive bars (RSI input). -/
def losses : List ℚ → List ℚ
  | a :: b :: t => max (a - b) 0 :: losses (b :: t)
  | _ => []

/-- One step of Wilder's smoothing with window `len`:
`avg ↦ (avg * (len - 1) + x) / len`. -/
def wilderStep (len : ℕ) (acc x : ℚ) : ℚ :=
  (acc * ((len : ℚ) - 1) + x) / (len : ℚ)

/-- Modelled from the spec: Wilder's smoothed average of a series with
window `len`: seeded with the simple average of the first `len` entries,
then smoothed recursively over the rest; undefined (`none`) when fewer than
`len` entries exist. -/
def wilderAvg (len : ℕ) (xs : List ℚ) : Option ℚ :=
  if xs.length < len then none
  else some ((xs.drop len).foldl (wilderStep len) ((xs.take len).sum / (len : ℚ)))

/-- Modelled from the spec (the `df.ta.rsi(length=14)` call of
`apply_strategy`, src/app.py line 51, is external `pandas_ta` code): RSI(14)
at bar `i`.  Average gain/loss are Wilder-smoothed over the diffs up to bar
`i` (there are `i` of them); RSI = 100 - 100/(1+RS) with RS = avg_gain /
avg_loss; if avg_loss = 0 then RSI = 100 when avg_gain > 0 and undefined
when both averages are 0. -/
def rsiAt (closes : List ℚ) (i : ℕ) : Option ℚ :=
  if closes.length ≤ i then none
  else
    match wilderAvg 14 ((gains closes).take i), wilderAvg 14 ((losses closes).take i) with
    | some ag, some al =>
        if al = 0 then (if 0 < ag then some 100 else none)
        else some (100 - 100 / (1 + ag / al))
    | _, _ => none

/-- The trailing 20-bar window ending at bar `i` (the rolling window of the
Bollinger computation). -/
def bbWindow (closes : List ℚ) (i : ℕ) : List ℚ :=
  (closes.take (i + 1)).drop (i + 1 - 20)

/-- Sample variance of a list (denominator `length - 1`). -/
def sampleVar (xs : List ℚ) : ℚ :=
  ((xs.map (fun x => (x - xs.sum / (xs.length : ℚ)) ^ 2)).sum) / ((xs.length : ℚ) - 1)

/-- Sample standard deviation, as a real number. -/
noncomputable def bbStdev (xs : List ℚ) : ℝ :=
  Real.sqrt (sampleVar xs)

/-- Modelled from the spec (the `df.ta.bbands(length=20, std=2)` call of
`apply_strategy`, src/app.py line 54, is external `pandas_ta` code):
middle Bollinger band at bar `i`, the simple moving average of the trailing
20 closes; undefined for `i < 19` and past the end of the series. -/
def bbMiddleAt (closes : List ℚ) (i : ℕ) : Option ℚ :=
  if i < 19 ∨ closes.length ≤ i then none
  else some ((bbWindow closes i).sum / 20)

/-- Modelled from the spec: upper Bollinger band = middle + 2 · sample
standard deviation of the trailing 20-bar window. -/
noncomputable def bbUpperAt (closes : List ℚ) (i : ℕ) : Option ℝ :=
  if i < 19 ∨ closes.length ≤ i then none
  else some ((((bbWindow closes i).sum / 20 : ℚ) : ℝ) + 2 * bbStdev (bbWindow closes i))

/-- Modelled from the spec: lower Bollinger band = middle - 2 · sample
standard deviation of the trailing 20-bar window. -/
noncomputable def bbLowerAt (closes : List ℚ) (i : ℕ) : Option ℝ :=
  if i < 19 ∨ closes.length ≤ i then none
  else some ((((bbWindow closes i).sum / 20 : ℚ) : ℝ) - 2 * bbStdev (bbWindow closes i))

/-- The simple moving average exactly as the spec words it: the average of
the 20 closes at indices i-19 .. i.  Used to compare the Bollinger middle
band against the spec. -/
def smaSpec (closes : List ℚ) (i : ℕ) : ℚ :=
  ((List.range 20).map (fun k => closes.getD (i - 19 + k) 0)).sum / 20

/-- The sample variance exactly as the spec words it: squared deviations
from the window mean over the 20 closes at indices i-19 .. i, divided by
19.  Used to compare the Bollinger band width against the spec. -/
def varSpec (closes : List ℚ) (i : ℕ) : ℚ :=
  ((List.range 20).map (fun k => (closes.getD (i - 19 + k) 0 - smaSpec closes i) ^ 2)).sum / 19

/-- The per-bar data `generate_signals` reads: the close price and the
(possibly undefined) `RSI`, `BB_Lower`, `BB_Upper` cells of one row. -/
structure SigRow (α : Type) where
  close : α
  rsi : Option α
  bbLower : Option α
  bbUpper : Option α
  deriving DecidableEq

/-- Strict `<` on possibly-undefined cells, with pandas `NaN` semantics:
any comparison against an undefined value is false. -/
def optLt {α : Type} [LinearOrder α] : Option α → Option α → Bool
  | some a, some b => decide (a < b)
  | _, _ => false

/-- One iteration of the `generate_signals` loop (src/app.py lines 71-85):
Buy (`(some close, none)`) when `close < BB_Lower` and `RSI < rsi_lower`;
else Sell (`(none, some close)`) when `close > BB_Upper` and
`RSI > rsi_upper`; else `(none, none)`. -/
def sigPair {α : Type} [LinearOrder α] (lo hi : α) (b : SigRow α) : Option α × Option α :=
  if optLt (some b.close) b.bbLower && optLt b.rsi (some lo) then (some b.close, none)
  else if optLt b.bbUpper (some b.close) && optLt (some hi) b.rsi then (none, some b.close)
  else (none, none)

/-- `generate_signals` (src/app.py lines 66-89): builds the `Buy_Signal`
and `Sell_Signal` columns, one entry per input row, each iteration
appending exactly one cell to each column. -/
def generate_signals {α : Type} [LinearOrder α] (lo hi : α) (rows : List (SigRow α)) :
    List (Option α) × List (Option α) :=
  (rows.map (fun b => (sigPair lo hi b).1), rows.map (fun b => (sigPair lo hi b).2))

/-- The Signal Classifier rule exactly as the spec words it (section 4.2):
`close < bb_lower ∧ rsi < rsi_lower_threshold` gives Buy with value
`close`; else `close > bb_upper ∧ rsi > rsi_upper_threshold` gives Sell
with value `close`; else None.  Used to compare the code's classifier
against the spec. -/
def signalSpec {α : Type} [LinearOrder α] (c bl bu r lo hi : α) : Option α × Option α :=
  if c < bl ∧ r < lo then (some c, none)
  else if bu < c ∧ hi < r then (none, some c)
  else (none, none)

/-- The row of per-bar values the classifier reads at index `i` of the
annotated frame: close plus the indicator cells, all cast into `ℝ`. -/
noncomputable def sigRowAt (closes : List ℚ) (i : ℕ) : SigRow ℝ :=
  { close := ((closes.getD i 0 : ℚ) : ℝ)
    rsi := (rsiAt closes i).map (fun q => (q : ℝ))
    bbLower := bbLowerAt closes i
    bbUpper := bbUpperAt closes i }

/-- All rows of the annotated frame, one per input bar. -/
noncomputable def strategyRows (closes : List ℚ) : List (SigRow ℝ) :=
  (List.range closes.length).map (sigRowAt closes)

/-- One OHLCV bar as fetched (src columns `Open High Low Close Volume`). -/
structure OhlcvBar where
  op : ℚ
  hp : ℚ
  lp : ℚ
  cl : ℚ
  vol : ℚ
  deriving DecidableEq

/-- The frame after `apply_strategy` (src/app.py lines 48-64): the original
bars plus the four indicator columns, each of the same length as the input. -/
structure StratFrame where
  bars : List OhlcvBar
  rsis : List (Option ℚ)
  bbLowers : List (Option ℝ)
  bbMiddles : List (Option ℚ)
  bbUppers : List (Option ℝ)

/-- The close-price column of a bar list. -/
def closesOf (bars : List OhlcvBar) : List ℚ :=
  bars.map (fun b => b.cl)

/-- `apply_strategy` (src/app.py lines 48-64): assigns the `RSI` column and
concatenates the three renamed Bollinger columns; no existing column or row
is touched. -/
noncomputable def apply_strategy (bars : List OhlcvBar) : StratFrame :=
  { bars := bars
    rsis := (List.range bars.length).map (rsiAt (closesOf bars))
    bbLowers := (List.range bars.length).map (bbLowerAt (closesOf bars))
    bbMiddles := (List.range bars.length).map (bbMiddleAt (closesOf bars))
    bbUppers := (List.range bars.length).map (bbUpperAt (closesOf bars)) }

/-- The frame after `generate_signals`: everything of `StratFrame` plus the
`Buy_Signal` and `Sell_Signal` columns. -/
structure FullFrame extends StratFrame where
  buys : List (Option ℝ)
  sells : List (Option ℝ)

/-- `generate_signals` applied to the annotated frame: the loop reads, per
index, the `Close`, `RSI`, `BB_Lower`, `BB_Upper` cells produced by
`apply_strategy` and appends the two signal columns. -/
noncomputable def generate_signals_frame (lo hi : ℚ) (f : StratFrame) : FullFrame :=
  { f with
    buys := (generate_signals ((lo : ℚ) : ℝ) ((hi : ℚ) : ℝ) (strategyRows (closesOf f.bars))).1
    sells := (generate_signals ((lo : ℚ) : ℝ) ((hi : ℚ) : ℝ) (strategyRows (closesOf f.bars))).2 }

/-- Outcome of `fetch_data` (src/app.py lines 39-46): either the provider
raised (the except branch shows the error and returns `None`) or it
returned a (possibly empty) frame. -/
inductive FetchResult
  | fetchError (msg : String)
  | ok (bars : List OhlcvBar)

/-- The message of the `else` branch of the Scan Market block
(src/app.py line 155). -/
def noDataMsg : String := "Data not found. Please verify the ticker symbol."

/-- The message of the except branch of `fetch_data` (src/app.py line 45). -/
def fetchErrMsg (e : String) : String := "Error fetching data: " ++ e

/-- The user-visible error messages of one scan (src/app.py lines 39-46 and
92-155): a fetch error shows the fetch message and then, since `fetch_data`
returned `None`, also the no-data message; an empty frame shows only the
no-data message; a nonempty frame shows neither. -/
def scanMessages : FetchResult → List String
  | .fetchError e => [fetchErrMsg e, noDataMsg]
  | .ok bars => if bars.isEmpty then [noDataMsg] else []

/-- The ScanResult of one scan (src/app.py lines 92-155): the fully
annotated frame, produced only when the fetch succeeded with at least one
bar; otherwise no partial result exists. -/
noncomputable def scanResult (lo hi : ℚ) : FetchResult → Option FullFrame
  | .fetchError _ => none
  | .ok bars =>
      if bars.isEmpty then none
      else some (generate_signals_frame lo hi (apply_strategy bars))

/-- The `RSI (14)` metric of the dashboard (src/app.py line 102): the RSI
cell of the last row. -/
def rsiMetric (closes : List ℚ) : Option ℚ :=
  rsiAt closes (closes.length - 1)

/-- The `Volatility (BB Width)` metric (src/app.py line 114):
`BB_Upper - BB_Lower` of the last row; undefined when either band is. -/
noncomputable def bbWidthMetric (closes : List ℚ) : Option ℝ :=
  match bbUpperAt closes (closes.length - 1), bbLowerAt closes (closes.length - 1) with
  | some u, some l => some (u - l)
  | _, _ => none

/-- Every entry of the gain series is nonnegative. -/
theorem gains_nonneg : ∀ (l : List ℚ), ∀ x ∈ gains l, 0 ≤ x
  | [] => by simp [gains]
  | [_] => by simp [gains]
  | a :: b :: t => by
      intro x hx
      simp only [gains, List.mem_cons] at hx
      rcases hx with h | h
      · exact h ▸ le_max_right _ _
      · exact gains_nonneg (b :: t) x h

/-- Every entry of the loss series is nonnegative. -/
theorem losses_nonneg : ∀ (l : List ℚ), ∀ x ∈ losses l, 0 ≤ x
  | [] => by simp [losses]
  | [_] => by simp [losses]
  | a :: b :: t => by
      intro x hx
      simp only [losses, List.mem_cons] at hx
      rcases hx with h | h
      · exact h ▸ le_max_right _ _
      · exact losses_nonneg (b :: t) x h

/-- Wilder smoothing over a nonnegative series stays nonnegative. -/
theorem wilderFold_nonneg (len : ℕ) (hlen : 1 ≤ len) :
    ∀ (xs : List ℚ) (acc : ℚ), 0 ≤ acc → (∀ x ∈ xs, 0 ≤ x) →
      0 ≤ xs.foldl (wilderStep len) acc
  | [], _, ha, _ => ha
  | x :: xs, acc, ha, hx => by
      have hx0 : 0 ≤ x := hx x (List.mem_cons_self _ _)
      have hstep : 0 ≤ wilderStep len acc x := by
        unfold wilderStep
        apply div_nonneg _ (Nat.cast_nonneg _)
        have h1 : (1 : ℚ) ≤ (len : ℚ) := by exact_mod_cast hlen
        have := mul_nonneg ha (by linarith : (0 : ℚ) ≤ (len : ℚ) - 1)
        linarith
      exact wilderFold_nonneg len hlen xs (wilderStep len acc x) hstep
        (fun y hy => hx y (List.mem_cons_of_mem _ hy))

/-- A defined Wilder average of a nonnegative series is nonnegative. -/
theorem wilderAvg_nonneg {len : ℕ} (hlen : 1 ≤ len) {xs : List ℚ} {a : ℚ}
    (hxs : ∀ x ∈ xs, 0 ≤ x) (h : wilderAvg len xs = some a) : 0 ≤ a := by
  unfold wilderAvg at h
  by_cases hl : xs.length < len
  · rw [if_pos hl] at h
    exact absurd h (by simp)
  · rw [if_neg hl] at h
    have hseed : 0 ≤ (xs.take len).sum / (len : ℚ) :=
      div_nonneg (List.sum_nonneg (fun x hx => hxs x (List.take_subset _ _ hx)))
        (Nat.cast_nonneg _)
    have h2 := wilderFold_nonneg len hlen (xs.drop len) _ hseed
      (fun x hx => hxs x (List.drop_subset _ _ hx))
    injection h with h
    exact h ▸ h2

/-- Appending future bars does not change any gain entry of the shared
part of the series. -/
theorem gains_take_append (m : List ℚ) : ∀ (l : List ℚ) (i : ℕ), i < l.length →
    (gains (l ++ m)).take i = (gains l).take i
  | [], i, h => absurd h (by simp)
  | [a], i, h => by
      have h0 : i = 0 := Nat.lt_one_iff.mp (by simpa using h)
      subst h0; simp
  | a :: b :: t, i, h => by
      cases i with
      | zero => simp
      | succ j =>
          have ih := gains_take_append m (b :: t) j
            (by simpa using Nat.lt_of_succ_lt_succ h)
          simp only [List.cons_append, List.append_eq, gains, List.take_succ_cons] at ih ⊢
          rw [ih]

/-- Appending future bars does not change any loss entry of the shared
part of the series. -/
theorem losses_take_append (m : List ℚ) : ∀ (l : List ℚ) (i : ℕ), i < l.length →
    (losses (l ++ m)).take i = (losses l).take i
  | [], i, h => absurd h (by simp)
  | [a], i, h => by
      have h0 : i = 0 := Nat.lt_one_iff.mp (by simpa using h)
      subst h0; simp
  | a :: b :: t, i, h => by
      cases i with
      | zero => simp
      | succ j =>
          have ih := losses_take_append m (b :: t) j
            (by simpa using Nat.lt_of_succ_lt_succ h)
          simp only [List.cons_append, List.append_eq, losses, List.take_succ_cons] at ih ⊢
          rw [ih]

/-- The gain series of a constant series is all zero. -/
theorem gains_replicate : ∀ (n : ℕ) (c : ℚ),
    gains (List.replicate n c) = List.replicate (n - 1) 0
  | 0, _ => rfl
  | 1, _ => rfl
  | n + 2, c => by
      have ih := gains_replicate (n + 1) c
      show gains (c :: c :: List.replicate n c) = List.replicate (n + 1) 0
      simp only [gains]
      rw [show (c :: List.replicate n c) = List.replicate (n + 1) c from rfl, ih]
      simp [List.replicate_succ]

/-- The loss series of a constant series is all zero. -/
theorem losses_replicate : ∀ (n : ℕ) (c : ℚ),
    losses (List.replicate n c) = List.replicate (n - 1) 0
  | 0, _ => rfl
  | 1, _ => rfl
  | n + 2, c => by
      have ih := losses_replicate (n + 1) c
      show losses (c :: c :: List.replicate n c) = List.replicate (n + 1) 0
      simp only [losses]
      rw [show (c :: List.replicate n c) = List.replicate (n + 1) c from rfl, ih]
      simp [List.replicate_succ]

/-- Wilder smoothing of an all-zero series from zero stays zero. -/
theorem wilderFold_zero (len : ℕ) :
    ∀ (k : ℕ), (List.replicate k (0 : ℚ)).foldl (wilderStep len) 0 = 0
  | 0 => rfl
  | k + 1 => by
      simp only [List.replicate_succ, List.foldl_cons]
      rw [show wilderStep len 0 0 = 0 by simp [wilderStep]]
      exact wilderFold_zero len k

/-- The Wilder average of an all-zero series is zero once the window is
full, and undefined before. -/
theorem wilderAvg_replicate_zero (len k : ℕ) :
    wilderAvg len (List.replicate k 0) = if k < len then none else some 0 := by
  unfold wilderAvg
  simp only [List.length_replicate]
  split_ifs with h
  · rfl
  · rw [List.take_replicate, List.drop_replicate, show min len k = len by omega,
      List.sum_replicate]
    simp [wilderFold_zero]

/-- One Wilder step applied to the running value `c` with input `c` gives
back `c`. -/
theorem wilderStep_const {len : ℕ} (hlen : 1 ≤ len) (c : ℚ) : wilderStep len c c = c := by
  unfold wilderStep
  have hne : ((len : ℚ)) ≠ 0 := Nat.cast_ne_zero.mpr (by omega)
  field_simp
  ring

/-- Wilder smoothing of a constant series from that constant stays at the
constant. -/
theorem wilderFold_const (len : ℕ) (hlen : 1 ≤ len) (c : ℚ) :
    ∀ (k : ℕ), (List.replicate k c).foldl (wilderStep len) c = c
  | 0 => rfl
  | k + 1 => by
      simp only [List.replicate_succ, List.foldl_cons]
      rw [wilderStep_const hlen]
      exact wilderFold_const len hlen c k

/-- The Wilder average of a constant series is that constant once the
window is full, and undefined before. -/
theorem wilderAvg_replicate {len : ℕ} (hlen : 1 ≤ len) (k : ℕ) (c : ℚ) :
    wilderAvg len (List.replicate k c) = if k < len then none else some c := by
  unfold wilderAvg
  simp only [List.length_replicate]
  split_ifs with h
  · rfl
  · rw [List.take_replicate, List.drop_replicate, show min len k = len by omega,
      List.sum_replicate]
    have hne : ((len : ℚ)) ≠ 0 := Nat.cast_ne_zero.mpr (by omega)
    rw [show ((len • c) / (len : ℚ)) = c by rw [nsmul_eq_mul]; field_simp]
    rw [wilderFold_const len hlen c]

/-- The Wilder average of a series of exactly the window length is its
plain average. -/
theorem wilderAvg_of_length_eq {len : ℕ} {xs : List ℚ} (h : xs.length = len) :
    wilderAvg len xs = some (xs.sum / (len : ℚ)) := by
  unfold wilderAvg
  rw [if_neg (by omega), List.take_of_length_le (by omega),
    List.drop_of_length_le (by omega)]
  rfl

/-- Claim C1: at every bar whose `rsi`, `bb_lower` and `bb_upper` cells are
all defined, the classifier's output at that bar equals the spec's rule
(Buy with value close when close < bb_lower and rsi < lower threshold, else
Sell with value close when close > bb_upper and rsi > upper threshold, else
None, with strict inequalities and the exact precedence), computed from
that bar's cells and the two thresholds alone. -/
theorem classifier_matches_spec {α : Type} [LinearOrder α] (lo hi : α)
    (rows : List (SigRow α)) (i : ℕ) (b : SigRow α) (hb : rows[i]? = some b)
    (r bl bu : α) (hr : b.rsi = some r) (hbl : b.bbLower = some bl)
    (hbu : b.bbUpper = some bu) :
    (generate_signals lo hi rows).1[i]? = some (signalSpec b.close bl bu r lo hi).1 ∧
    (generate_signals lo hi rows).2[i]? = some (signalSpec b.close bl bu r lo hi).2 := by
  unfold generate_signals signalSpec sigPair
  simp only [List.getElem?_map, hb, Option.map_some', hr, hbl, hbu, optLt,
    Bool.and_eq_true, decide_eq_true_eq]
  constructor <;> trivial

/-- Witness for C1 at a concrete bar: close 95 under the lower band 96 with
RSI 20 under the threshold 25 produces a Buy at value 95 and no Sell. -/
theorem classifier_matches_spec_witness :
    (generate_signals (25 : ℚ) 75 [⟨95, some 20, some 96, some 104⟩]).1[0]? =
      some (signalSpec (95 : ℚ) 96 104 20 25 75).1 ∧
    (generate_signals (25 : ℚ) 75 [⟨95, some 20, some 96, some 104⟩]).2[0]? =
      some (signalSpec (95 : ℚ) 96 104 20 25 75).2 :=
  classifier_matches_spec 25 75 [⟨95, some 20, some 96, some 104⟩] 0
    ⟨95, some 20, some 96, some 104⟩ rfl 20 96 104 rfl rfl rfl

/-- Claim C2: for every input row list and every pair of thresholds
(including lower ≥ upper), no index ever carries both a Buy and a Sell
signal: at each index at least one of the two cells is empty. -/
theorem buy_sell_exclusive {α : Type} [LinearOrder α] (lo hi : α)
    (rows : List (SigRow α)) (i : ℕ) :
    (generate_signals lo hi rows).1.getD i none = none ∨
    (generate_signals lo hi rows).2.getD i none = none := by
  unfold generate_signals
  rcases h : rows[i]? with _ | b
  · simp [h]
  · simp only [List.getD_eq_getElem?_getD, List.getElem?_map, h, Option.map_some']
    unfold sigPair
    split_ifs <;> simp

/-- Claim C10: `apply_strategy` and `generate_signals` only add derived
columns: the original bars (hence Open/High/Low/Close/Volume values, row
order and row count) are unchanged, each indicator column has one entry per
bar, and `Buy_Signal` / `Sell_Signal` each have exactly one entry per input
bar. -/
theorem frame_effects (bars : List OhlcvBar) (lo hi : ℚ) :
    (apply_strategy bars).bars = bars ∧
    (apply_strategy bars).rsis.length = bars.length ∧
    (apply_strategy bars).bbLowers.length = bars.length ∧
    (apply_strategy bars).bbMiddles.length = bars.length ∧
    (apply_strategy bars).bbUppers.length = bars.length ∧
    (generate_signals_frame lo hi (apply_strategy bars)).toStratFrame = apply_strategy bars ∧
    (generate_signals_frame lo hi (apply_strategy bars)).buys.length = bars.length ∧
    (generate_signals_frame lo hi (apply_strategy bars)).sells.length = bars.length := by
  refine ⟨rfl, ?_, ?_, ?_, ?_, rfl, ?_, ?_⟩ <;>
    simp [apply_strategy, generate_signals_frame, generate_signals, strategyRows, closesOf]

/-- Counterexample to claim C6 as stated: RSI is not "undefined exactly for
indices i < 13".  On the 15-bar strictly increasing series the index 13 is
in range and not below 13, yet RSI is undefined there (the window of 14
diffs is only full at index 14); and on a 20-bar flat series index 14 is
in range and not below 13, yet RSI is undefined there as well (both
averages are zero). -/
theorem rsi_undef_boundary_cex :
    rsiAt [0, 1, 2, 3, 4, 5, 6, 7, 8, 9, 10, 11, 12, 13, 14] 13 = none ∧
    13 < ([0, 1, 2, 3, 4, 5, 6, 7, 8, 9, 10, 11, 12, 13, 14] : List ℚ).length ∧
    rsiAt (List.replicate 20 (5 : ℚ)) 14 = none ∧
    14 < (List.replicate 20 (5 : ℚ)).length := by
  refine ⟨by decide, by decide, ?_, by decide⟩
  unfold rsiAt
  rw [if_neg (by simp), gains_replicate, losses_replicate]
  simp only [List.take_replicate, wilderAvg_replicate_zero]
  norm_num

/-- Claim C6 (amended): RSI at bar `i` is undefined for `i < 14` and past
the end of the series; where both smoothed averages are defined it equals
100 when the average loss is 0 (and is undefined when both averages are 0,
see the zero-division policy), and otherwise equals 100 - 100/(1+RS) with
RS = avg_gain / avg_loss; every defined RSI value lies in [0, 100]. -/
theorem rsi_spec (closes : List ℚ) (i : ℕ) :
    ((i < 14 ∨ closes.length ≤ i) → rsiAt closes i = none) ∧
    (∀ ag al : ℚ, wilderAvg 14 ((gains closes).take i) = some ag →
        wilderAvg 14 ((losses closes).take i) = some al → i < closes.length →
        (al = 0 → 0 < ag → rsiAt closes i = some 100) ∧
        (al ≠ 0 → rsiAt closes i = some (100 - 100 / (1 + ag / al)))) ∧
    (∀ r : ℚ, rsiAt closes i = some r → 0 ≤ r ∧ r ≤ 100) := by
  refine ⟨?_, ?_, ?_⟩
  · intro h
    unfold rsiAt
    rcases h with h | h
    · by_cases hle : closes.length ≤ i
      · rw [if_pos hle]
      · rw [if_neg hle]
        have hlen : ((gains closes).take i).length < 14 :=
          lt_of_le_of_lt (List.length_take_le _ _) h
        have hg : wilderAvg 14 ((gains closes).take i) = none := by
          unfold wilderAvg
          rw [if_pos hlen]
        rw [hg]
    · rw [if_pos h]
  · intro ag al hag hal hi
    unfold rsiAt
    rw [if_neg (not_le.mpr hi), hag, hal]
    constructor
    · intro h0 hpos
      show (if al = 0 then (if 0 < ag then some (100 : ℚ) else none)
          else some (100 - 100 / (1 + ag / al))) = some 100
      rw [if_pos h0, if_pos hpos]
    · intro hne
      show (if al = 0 then (if 0 < ag then some (100 : ℚ) else none)
          else some (100 - 100 / (1 + ag / al))) = some (100 - 100 / (1 + ag / al))
      rw [if_neg hne]
  · intro r hr
    unfold rsiAt at hr
    by_cases hle : closes.length ≤ i
    · rw [if_pos hle] at hr
      exact absurd hr (by simp)
    · rw [if_neg hle] at hr
      rcases hag : wilderAvg 14 ((gains closes).take i) with _ | ag
      · rw [hag] at hr
        rcases wilderAvg 14 ((losses closes).take i) with _ | al <;> simp at hr
      · rcases hal : wilderAvg 14 ((losses closes).take i) with _ | al
        · rw [hag, hal] at hr
          simp at hr
        · rw [hag, hal] at hr
          have hr' : (if al = 0 then (if 0 < ag then some (100 : ℚ) else none)
              else some (100 - 100 / (1 + ag / al))) = some r := hr
          have hag0 : 0 ≤ ag := wilderAvg_nonneg (by norm_num) (fun x hx =>
            gains_nonneg closes x (List.take_subset _ _ hx)) hag
          have hal0 : 0 ≤ al := wilderAvg_nonneg (by norm_num) (fun x hx =>
            losses_nonneg closes x (List.take_subset _ _ hx)) hal
          by_cases h0 : al = 0
          · rw [if_pos h0] at hr'
            by_cases hpos : 0 < ag
            · rw [if_pos hpos] at hr'
              injection hr' with hr'
              subst hr'
              norm_num
            · rw [if_neg hpos] at hr'
              exact absurd hr' (by simp)
          · rw [if_neg h0] at hr'
            injection hr' with hr'
            subst hr'
            have halpos : 0 < al := lt_of_le_of_ne hal0 (Ne.symm h0)
            have ht : 0 ≤ ag / al := div_nonneg hag0 hal0
            have h1t : (0 : ℚ) < 1 + ag / al := by linarith
            have hub : 100 / (1 + ag / al) ≤ 100 := div_le_self (by norm_num) (by linarith)
            have hlb : 0 < 100 / (1 + ag / al) := div_pos (by norm_num) h1t
            constructor <;> linarith

/-- Witness for C6 at a concrete input: on the 16-bar series with one
initial drop from 1 to 0 and then flat, RSI at index 3 is undefined, RSI
at index 14 equals the 100 - 100/(1+RS) formula with smoothed average gain
0 and average loss 1/14, and the resulting value is in [0, 100]. -/
theorem rsi_spec_witness :
    rsiAt ((1 : ℚ) :: List.replicate 15 0) 3 = none ∧
    rsiAt ((1 : ℚ) :: List.replicate 15 0) 14 =
      some (100 - 100 / (1 + (0 : ℚ) / (1 / 14))) ∧
    (0 ≤ (100 - 100 / (1 + (0 : ℚ) / (1 / 14))) ∧
      (100 - 100 / (1 + (0 : ℚ) / (1 / 14))) ≤ 100) := by
  have hg : gains ((1 : ℚ) :: List.replicate 15 0) = List.replicate 15 0 := by
    norm_num [gains, List.replicate_succ, max_def]
  have hl : losses ((1 : ℚ) :: List.replicate 15 0) = 1 :: List.replicate 14 0 := by
    norm_num [losses, List.replicate_succ, max_def]
  have hag : wilderAvg 14 ((gains ((1 : ℚ) :: List.replicate 15 0)).take 14) = some 0 := by
    rw [hg, List.take_replicate, wilderAvg_replicate_zero]
    norm_num
  have hal : wilderAvg 14 ((losses ((1 : ℚ) :: List.replicate 15 0)).take 14) =
      some ((1 : ℚ) / 14) := by
    rw [hl]
    show wilderAvg 14 ((1 : ℚ) :: List.replicate 13 0) = _
    rw [wilderAvg_of_length_eq (by simp)]
    norm_num [List.sum_replicate]
  have h2 := ((rsi_spec ((1 : ℚ) :: List.replicate 15 0) 14).2.1 0 (1 / 14) hag hal
    (by simp)).2 (by norm_num)
  exact ⟨(rsi_spec ((1 : ℚ) :: List.replicate 15 0) 3).1 (Or.inl (by norm_num)), h2,
    (rsi_spec ((1 : ℚ) :: List.replicate 15 0) 14).2.2 _ h2⟩

/-- Claim C7: the RSI zero-division policy: where the smoothed average loss
is 0 and the smoothed average gain is positive, RSI is 100; where both are
0, RSI is left undefined; in particular an all-flat close series has
undefined RSI at every index. -/
theorem rsi_zero_division_policy (closes : List ℚ) (i : ℕ) :
    (∀ ag : ℚ, wilderAvg 14 ((gains closes).take i) = some ag → 0 < ag →
        wilderAvg 14 ((losses closes).take i) = some 0 → i < closes.length →
        rsiAt closes i = some 100) ∧
    (wilderAvg 14 ((gains closes).take i) = some 0 →
        wilderAvg 14 ((losses closes).take i) = some 0 →
        rsiAt closes i = none) ∧
    (∀ (n : ℕ) (c : ℚ), rsiAt (List.replicate n c) i = none) := by
  refine ⟨?_, ?_, ?_⟩
  · intro ag hag hpos hal hi
    unfold rsiAt
    rw [if_neg (not_le.mpr hi), hag, hal]
    show (if (0 : ℚ) = 0 then (if 0 < ag then some (100 : ℚ) else none)
        else some (100 - 100 / (1 + ag / 0))) = some 100
    rw [if_pos rfl, if_pos hpos]
  · intro hag hal
    unfold rsiAt
    by_cases hle : closes.length ≤ i
    · rw [if_pos hle]
    · rw [if_neg hle, hag, hal]
      show (if (0 : ℚ) = 0 then (if (0 : ℚ) < 0 then some (100 : ℚ) else none)
          else some (100 - 100 / (1 + 0 / 0))) = none
      rw [if_pos rfl, if_neg (lt_irrefl 0)]
  · intro n c
    unfold rsiAt
    by_cases hle : (List.replicate n c).length ≤ i
    · rw [if_pos hle]
    · rw [if_neg hle, gains_replicate, losses_replicate, List.take_replicate,
        wilderAvg_replicate_zero]
      by_cases h2 : min i (n - 1) < 14
      · rw [if_pos h2]
      · rw [if_neg h2]
        show (if (0 : ℚ) = 0 then (if (0 : ℚ) < 0 then some (100 : ℚ) else none)
            else some (100 - 100 / (1 + 0 / 0))) = none
        rw [if_pos rfl, if_neg (lt_irrefl 0)]

/-- Witness for C7: on the 16-bar series with one initial rise from 0 to 1
and then flat, the smoothed average loss is 0 and the smoothed average
gain is the positive 1/14, so RSI at index 14 is 100; and the 17-bar flat
series at value 3 has undefined RSI at index 6. -/
theorem rsi_zero_division_policy_witness :
    rsiAt ((0 : ℚ) :: List.replicate 15 1) 14 = some 100 ∧
    rsiAt (List.replicate 17 (3 : ℚ)) 6 = none := by
  have hg : gains ((0 : ℚ) :: List.replicate 15 1) = 1 :: List.replicate 14 0 := by
    norm_num [gains, List.replicate_succ, max_def]
  have hl : losses ((0 : ℚ) :: List.replicate 15 1) = List.replicate 15 0 := by
    norm_num [losses, List.replicate_succ, max_def]
  have hag : wilderAvg 14 ((gains ((0 : ℚ) :: List.replicate 15 1)).take 14) =
      some ((1 : ℚ) / 14) := by
    rw [hg]
    show wilderAvg 14 ((1 : ℚ) :: List.replicate 13 0) = _
    rw [wilderAvg_of_length_eq (by simp)]
    norm_num [List.sum_replicate]
  have hal : wilderAvg 14 ((losses ((0 : ℚ) :: List.replicate 15 1)).take 14) = some 0 := by
    rw [hl, List.take_replicate, wilderAvg_replicate_zero]
    norm_num
  exact ⟨(rsi_zero_division_policy ((0 : ℚ) :: List.replicate 15 1) 14).1 (1 / 14) hag
      (by norm_num) hal (by simp),
    (rsi_zero_division_policy [] 6).2.2 17 3⟩

/-- Claim C8: a fetch failure is surfaced with a human-readable message and
yields no ScanResult; an empty fetch is surfaced with the distinct no-data
message and also yields no ScanResult; the two message traces differ. -/
theorem fetch_error_handling (e : String) (lo hi : ℚ) :
    scanResult lo hi (.fetchError e) = none ∧
    fetchErrMsg e ∈ scanMessages (.fetchError e) ∧
    scanResult lo hi (.ok []) = none ∧
    scanMessages (.ok []) = [noDataMsg] ∧
    scanMessages (.fetchError e) ≠ scanMessages (.ok []) := by
  refine ⟨rfl, by simp [scanMessages], by simp [scanResult], by simp [scanMessages], ?_⟩
  simp [scanMessages]

/-- For an in-range bar the rolling window is exactly the 20 closes at
indices i-19 .. i. -/
theorem bbWindow_eq (closes : List ℚ) (i : ℕ) (h19 : 19 ≤ i) (hn : i < closes.length) :
    bbWindow closes i = (List.range 20).map (fun k => closes.getD (i - 19 + k) 0) := by
  apply List.ext_getElem
  · simp only [bbWindow, List.length_drop, List.length_take, List.length_map,
      List.length_range]
    omega
  · intro j h1 h2
    have h20 : j < 20 := by simpa using h2
    have hb : i - 19 + j < closes.length := by omega
    have hidx : i + 1 - 20 + j = i - 19 + j := by omega
    simp only [bbWindow, List.getElem_drop, List.getElem_take, List.getElem_map,
      List.getElem_range, hidx]
    rw [List.getD_eq_getElem]

/-- Claim C5: for an in-range bar with a full window, the middle band is
the simple moving average of the trailing 20 closes and the upper / lower
bands are the middle band plus / minus twice the sample standard deviation
of that window; for `i < 19` all three bands are undefined. -/
theorem bollinger_spec (closes : List ℚ) (i : ℕ) :
    (19 ≤ i → i < closes.length →
      bbMiddleAt closes i = some (smaSpec closes i) ∧
      bbUpperAt closes i =
        some (((smaSpec closes i : ℚ) : ℝ) + 2 * Real.sqrt ((varSpec closes i : ℚ) : ℝ)) ∧
      bbLowerAt closes i =
        some (((smaSpec closes i : ℚ) : ℝ) - 2 * Real.sqrt ((varSpec closes i : ℚ) : ℝ))) ∧
    (i < 19 → bbMiddleAt closes i = none ∧ bbUpperAt closes i = none ∧
      bbLowerAt closes i = none) := by
  constructor
  · intro h19 hn
    have hw := bbWindow_eq closes i h19 hn
    have hsum : (bbWindow closes i).sum / 20 = smaSpec closes i := by
      rw [hw]; rfl
    have hvar : sampleVar (bbWindow closes i) = varSpec closes i := by
      unfold sampleVar varSpec smaSpec
      rw [hw]
      simp only [List.length_map, List.length_range, List.map_map]
      norm_num [Function.comp_def]
    refine ⟨?_, ?_, ?_⟩
    · unfold bbMiddleAt
      rw [if_neg (by omega), hsum]
    · unfold bbUpperAt bbStdev
      rw [if_neg (by omega), hsum, hvar]
    · unfold bbLowerAt bbStdev
      rw [if_neg (by omega), hsum, hvar]
  · intro h19
    unfold bbMiddleAt bbUpperAt bbLowerAt
    exact ⟨if_pos (Or.inl h19), if_pos (Or.inl h19), if_pos (Or.inl h19)⟩

/-- Witness for C5: the Bollinger contract instantiated on a concrete
21-bar series, at the in-range index 19 and at the undefined index 2. -/
theorem bollinger_spec_witness :
    (bbMiddleAt (List.replicate 21 (7 : ℚ)) 19 = some (smaSpec (List.replicate 21 7) 19) ∧
      bbUpperAt (List.replicate 21 (7 : ℚ)) 19 =
        some (((smaSpec (List.replicate 21 7) 19 : ℚ) : ℝ) +
          2 * Real.sqrt ((varSpec (List.replicate 21 7) 19 : ℚ) : ℝ)) ∧
      bbLowerAt (List.replicate 21 (7 : ℚ)) 19 =
        some (((smaSpec (List.replicate 21 7) 19 : ℚ) : ℝ) -
          2 * Real.sqrt ((varSpec (List.replicate 21 7) 19 : ℚ) : ℝ))) ∧
    (bbMiddleAt (List.replicate 21 (7 : ℚ)) 2 = none ∧
      bbUpperAt (List.replicate 21 (7 : ℚ)) 2 = none ∧
      bbLowerAt (List.replicate 21 (7 : ℚ)) 2 = none) :=
  ⟨(bollinger_spec (List.replicate 21 7) 19).1 (by norm_num) (by simp),
   (bollinger_spec (List.replicate 21 7) 2).2 (by norm_num)⟩

/-- The rolling window of a constant series is constant. -/
theorem bbWindow_replicate (c : ℚ) (n i : ℕ) (h19 : 19 ≤ i) (hin : i < n) :
    bbWindow (List.replicate n c) i = List.replicate 20 c := by
  unfold bbWindow
  rw [List.take_replicate, List.drop_replicate]
  congr 1
  omega

/-- The sample variance of a constant 20-bar window is zero. -/
theorem sampleVar_replicate (c : ℚ) : sampleVar (List.replicate 20 c) = 0 := by
  unfold sampleVar
  rw [List.sum_replicate, List.length_replicate, List.map_replicate, List.sum_replicate]
  norm_num [nsmul_eq_mul]

/-- Claim C9: on an all-constant close series, for every in-range bar with
a full window, the sample standard deviation of the trailing window is 0
and the upper and lower bands collapse onto the middle band, all three
equal to the constant. -/
theorem constant_bands (c : ℚ) (n i : ℕ) (hn : 20 ≤ n) (h19 : 19 ≤ i) (hin : i < n) :
    sampleVar (bbWindow (List.replicate n c) i) = 0 ∧
    bbStdev (bbWindow (List.replicate n c) i) = 0 ∧
    bbMiddleAt (List.replicate n c) i = some c ∧
    bbUpperAt (List.replicate n c) i = some ((c : ℚ) : ℝ) ∧
    bbLowerAt (List.replicate n c) i = some ((c : ℚ) : ℝ) := by
  have hwin := bbWindow_replicate c n i h19 hin
  have hvar : sampleVar (bbWindow (List.replicate n c) i) = 0 := by
    rw [hwin, sampleVar_replicate]
  have hstd : bbStdev (bbWindow (List.replicate n c) i) = 0 := by
    unfold bbStdev
    rw [hvar]
    simp
  have hguard : ¬(i < 19 ∨ (List.replicate n c).length ≤ i) := by
    simp only [List.length_replicate]
    omega
  have hsum : (bbWindow (List.replicate n c) i).sum / 20 = c := by
    rw [hwin, List.sum_replicate]
    norm_num [nsmul_eq_mul]
  refine ⟨hvar, hstd, ?_, ?_, ?_⟩
  · unfold bbMiddleAt
    rw [if_neg hguard, hsum]
  · unfold bbUpperAt
    rw [if_neg hguard, hstd, hsum]
    norm_num
  · unfold bbLowerAt
    rw [if_neg hguard, hstd, hsum]
    norm_num

/-- Witness for C9: on the 25-bar constant series at value 9, at index 20
the variance is 0 and all three bands equal 9. -/
theorem constant_bands_witness :
    sampleVar (bbWindow (List.replicate 25 (9 : ℚ)) 20) = 0 ∧
    bbStdev (bbWindow (List.replicate 25 (9 : ℚ)) 20) = 0 ∧
    bbMiddleAt (List.replicate 25 (9 : ℚ)) 20 = some 9 ∧
    bbUpperAt (List.replicate 25 (9 : ℚ)) 20 = some ((9 : ℚ) : ℝ) ∧
    bbLowerAt (List.replicate 25 (9 : ℚ)) 20 = some ((9 : ℚ) : ℝ) :=
  constant_bands 9 25 20 (by norm_num) (by norm_num) (by norm_num)

/-- Counterexample to claim C3 as stated: with fewer than 20 bars the
summary metrics are not all reported as undefined.  On the 15-bar series
with one initial rise and then flat closes, the dashboard's RSI metric
(the RSI cell of the last row) is computed as 100. -/
theorem short_series_metric_cex :
    ((0 : ℚ) :: List.replicate 14 1).length < 20 ∧
    rsiMetric ((0 : ℚ) :: List.replicate 14 1) = some 100 := by
  refine ⟨by simp, ?_⟩
  have hg : gains ((0 : ℚ) :: List.replicate 14 1) = 1 :: List.replicate 13 0 := by
    norm_num [gains, List.replicate_succ, max_def]
  have hl : losses ((0 : ℚ) :: List.replicate 14 1) = List.replicate 14 0 := by
    norm_num [losses, List.replicate_succ, max_def]
  have hag : wilderAvg 14 ((gains ((0 : ℚ) :: List.replicate 14 1)).take 14) =
      some ((1 : ℚ) / 14) := by
    rw [hg]
    show wilderAvg 14 ((1 : ℚ) :: List.replicate 13 0) = _
    rw [wilderAvg_of_length_eq (by simp)]
    norm_num [List.sum_replicate]
  have hal : wilderAvg 14 ((losses ((0 : ℚ) :: List.replicate 14 1)).take 14) = some 0 := by
    rw [hl, List.take_replicate, wilderAvg_replicate_zero]
    norm_num
  show rsiAt ((0 : ℚ) :: List.replicate 14 1) 14 = some 100
  unfold rsiAt
  rw [if_neg (by simp), hag, hal]
  show (if (0 : ℚ) = 0 then (if (0 : ℚ) < 1 / 14 then some (100 : ℚ) else none)
      else some (100 - 100 / (1 + (1 / 14) / 0))) = some 100
  rw [if_pos rfl, if_pos (by norm_num)]

/-- Claim C3 (amended): with fewer than 20 bars all three band values are
undefined at every index, the classifier emits no Buy and no Sell signal
at any index, and the band-width summary metric is undefined rather than
computed (the scan itself does not fail; the RSI metric, however, may
still be computed once at least 15 bars exist). -/
theorem short_series (closes : List ℚ) (lo hi : ℝ) (hn : closes.length < 20) :
    (∀ i, bbMiddleAt closes i = none ∧ bbLowerAt closes i = none ∧
      bbUpperAt closes i = none) ∧
    (∀ i, (generate_signals lo hi (strategyRows closes)).1.getD i none = none ∧
      (generate_signals lo hi (strategyRows closes)).2.getD i none = none) ∧
    bbWidthMetric closes = none := by
  have hb : ∀ j, bbMiddleAt closes j = none ∧ bbLowerAt closes j = none ∧
      bbUpperAt closes j = none := by
    intro j
    unfold bbMiddleAt bbLowerAt bbUpperAt
    refine ⟨if_pos ?_, if_pos ?_, if_pos ?_⟩ <;> omega
  have hsig : ∀ j, sigPair lo hi (sigRowAt closes j) = (none, none) := by
    intro j
    unfold sigPair sigRowAt
    rw [(hb j).2.1, (hb j).2.2]
    simp [optLt]
  refine ⟨hb, ?_, ?_⟩
  · intro i
    unfold generate_signals
    simp only [List.getD_eq_getElem?_getD, List.getElem?_map]
    rcases hrow : (strategyRows closes)[i]? with _ | row
    · simp
    · have hrow' : row = sigRowAt closes i := by
        unfold strategyRows at hrow
        rw [List.getElem?_map] at hrow
        by_cases hi : i < closes.length
        · rw [List.getElem?_range hi] at hrow
          simpa using hrow.symm
        · rw [List.getElem?_eq_none (by simpa using not_lt.mp hi)] at hrow
          exact absurd hrow (by simp)
      subst hrow'
      simp [hsig i]
  · unfold bbWidthMetric
    rw [(hb (closes.length - 1)).2.2]

/-- Witness for C3 on a concrete 5-bar series: all bands undefined, no
signal at any index, band-width metric undefined. -/
theorem short_series_witness :
    (∀ i, bbMiddleAt (List.replicate 5 (3 : ℚ)) i = none ∧
      bbLowerAt (List.replicate 5 (3 : ℚ)) i = none ∧
      bbUpperAt (List.replicate 5 (3 : ℚ)) i = none) ∧
    (∀ i, (generate_signals (0 : ℝ) 0 (strategyRows (List.replicate 5 3))).1.getD i none =
        none ∧
      (generate_signals (0 : ℝ) 0 (strategyRows (List.replicate 5 3))).2.getD i none = none) ∧
    bbWidthMetric (List.replicate 5 3) = none :=
  short_series (List.replicate 5 3) 0 0 (by simp)

/-- Appending future bars does not change the RSI at a shared index. -/
theorem rsiAt_append (l m : List ℚ) (i : ℕ) (h : i < l.length) :
    rsiAt (l ++ m) i = rsiAt l i := by
  unfold rsiAt
  rw [if_neg (by simp only [List.length_append]; omega), if_neg (by omega),
    gains_take_append m l i h, losses_take_append m l i h]

/-- Appending future bars does not change the rolling window at a shared
index. -/
theorem bbWindow_append (l m : List ℚ) (i : ℕ) (h : i < l.length) :
    bbWindow (l ++ m) i = bbWindow l i := by
  unfold bbWindow
  rw [List.take_append_of_le_length (by omega)]

/-- Claim C4: no look-ahead.  Truncating the series anywhere after index
`i` (that is, extending the truncation `l` by any future bars `m`) leaves
the RSI, all three Bollinger bands, the classifier's input row and the
per-bar signal at index `i` unchanged. -/
theorem no_look_ahead (l m : List ℚ) (lo hi : ℝ) (i : ℕ) (h : i < l.length) :
    rsiAt (l ++ m) i = rsiAt l i ∧
    bbMiddleAt (l ++ m) i = bbMiddleAt l i ∧
    bbLowerAt (l ++ m) i = bbLowerAt l i ∧
    bbUpperAt (l ++ m) i = bbUpperAt l i ∧
    sigRowAt (l ++ m) i = sigRowAt l i ∧
    sigPair lo hi (sigRowAt (l ++ m) i) = sigPair lo hi (sigRowAt l i) := by
  have hmid : bbMiddleAt (l ++ m) i = bbMiddleAt l i := by
    unfold bbMiddleAt
    by_cases h19 : i < 19
    · rw [if_pos (Or.inl h19), if_pos (Or.inl h19)]
    · rw [if_neg (by simp only [List.length_append]; omega), if_neg (by omega),
        bbWindow_append l m i h]
  have hlow : bbLowerAt (l ++ m) i = bbLowerAt l i := by
    unfold bbLowerAt
    by_cases h19 : i < 19
    · rw [if_pos (Or.inl h19), if_pos (Or.inl h19)]
    · rw [if_neg (by simp only [List.length_append]; omega), if_neg (by omega),
        bbWindow_append l m i h]
  have hup : bbUpperAt (l ++ m) i = bbUpperAt l i := by
    unfold bbUpperAt
    by_cases h19 : i < 19
    · rw [if_pos (Or.inl h19), if_pos (Or.inl h19)]
    · rw [if_neg (by simp only [List.length_append]; omega), if_neg (by omega),
        bbWindow_append l m i h]
  have hrow : sigRowAt (l ++ m) i = sigRowAt l i := by
    unfold sigRowAt
    rw [rsiAt_append l m i h, hlow, hup, List.getD_append _ _ _ _ h]
  exact ⟨rsiAt_append l m i h, hmid, hlow, hup, hrow, by rw [hrow]⟩

/-- Witness for C4: extending the 2-bar series [1, 2] with [3, 4] changes
nothing at index 1. -/
theorem no_look_ahead_witness :
    rsiAt ([1, 2] ++ [3, 4]) 1 = rsiAt [1, 2] 1 ∧
    bbMiddleAt ([1, 2] ++ [3, 4]) 1 = bbMiddleAt [1, 2] 1 ∧
    bbLowerAt ([1, 2] ++ [3, 4]) 1 = bbLowerAt [1, 2] 1 ∧
    bbUpperAt ([1, 2] ++ [3, 4]) 1 = bbUpperAt [1, 2] 1 ∧
    sigRowAt ([1, 2] ++ [3, 4]) 1 = sigRowAt [1, 2] 1 ∧
    sigPair (0 : ℝ) 0 (sigRowAt ([1, 2] ++ [3, 4]) 1) =
      sigPair (0 : ℝ) 0 (sigRowAt [1, 2] 1) :=
  no_look_ahead [1, 2] [3, 4] 0 0 1 (by simp)

end CryptoScalp
